import Mathlib

/-!
Verification development for the Nifty 50 dashboard (src/app.py).

The derived-metric computations of app.py are shallowly embedded as
computable Lean functions over exact rationals (ℚ models the float
prices; no theorem below depends on float-specific behaviour).

Modelling conventions, used consistently below:
* a pandas series of closes is a `List ℚ`, ordered ascending by time,
  so the latest close is the last element;
* `series.iloc[-k]` is `iloc l k`; an out-of-range access (IndexError)
  is `none`;
* a Python expression that can raise inside a `try` block is modelled
  with `Option`: `none` means the exception was raised there and is
  caught by the enclosing bare `except`;
* a provider call (`yf.Ticker(...).history(...)`, `.info`) that raises
  is modelled as `Except.error ()`; data it returns successfully is a
  `StockData`;
* Python `round(x, 2)` is modelled by `round2` (round to nearest
  multiple of 1/100; Python rounds exact half-cent ties to even, a
  case no statement below touches);
* a pandas float NaN result is modelled as `none`.
-/

/-- Division as Python performs it: a zero denominator raises
ZeroDivisionError, modelled as `none`. -/
def qdiv (a b : ℚ) : Option ℚ := if b = 0 then none else some (a / b)

/-- Negative pandas positional indexing: `iloc l k` models
`series.iloc[-k]` for `k ≥ 1` (valid when `k ≤ length`, otherwise an
IndexError, modelled as `none`). -/
def iloc (l : List ℚ) (k : Nat) : Option ℚ :=
  if 1 ≤ k ∧ k ≤ l.length then l.get? (l.length - k) else none

/-- Python `round(x, 2)`: round to the nearest multiple of 1/100. -/
def round2 (x : ℚ) : ℚ := (⌊x * 100 + 1 / 2⌋ : ℚ) / 100

/-- Character-level model of the Python call `ticker.replace(".NS", "")`
in app.py line 78: every (leftmost, non-overlapping) occurrence of the
substring ".NS" is removed, not only a trailing one. -/
def stripNSChars : List Char → List Char
  | '.' :: 'N' :: 'S' :: rest => stripNSChars rest
  | c :: rest => c :: stripNSChars rest
  | [] => []

/-- Model of `ticker.replace(".NS", "")` (app.py line 78). -/
def stripNS (t : String) : String := String.mk (stripNSChars t.data)

/-- SECTOR_MAP of app.py lines 46-55, verbatim. -/
def SECTOR_MAP : List (String × List String) :=
  [("Banking/Finance",
    ["HDFCBANK", "ICICIBANK", "SBIN", "KOTAKBANK", "AXISBANK", "BAJFINANCE",
     "JIOFIN", "HDFCLIFE", "SBILIFE"]),
   ("IT/Technology", ["TCS", "INFY", "HCLTECH", "WIPRO", "TECHM"]),
   ("Energy/Oil", ["RELIANCE", "ONGC", "NTPC", "POWERGRID", "COALINDIA", "ADANIPOWER"]),
   ("Consumer Goods", ["ITC", "HINDUNILVR", "NESTLEIND", "TATACONSUM", "ASIANPAINT", "TITAN"]),
   ("Automobile", ["TATAMOTORS", "MARUTI", "M&M", "EICHERMOT"]),
   ("Pharma/Health", ["SUNPHARMA", "DRREDDY", "CIPLA", "MAXHEALTH", "APOLLOHOSP"]),
   ("Metals/Mining", ["TATASTEEL", "HINDALCO", "JSWSTEEL"]),
   ("Infrastructure/Misc",
    ["LT", "ADANIENT", "ADANIPORTS", "GRASIM", "ULTRACEMCO", "TRENT", "BEL",
     "SHREECEM", "INDIGO"])]

/-- REVERSE_MAP.get(symbol_clean, "Other") of app.py lines 56 and 96: the
sector whose ticker list contains the symbol, defaulting to "Other".
The Python dict comprehension and this first-match search agree because
no ticker occurs in two sectors. -/
def sectorOf (s : String) : String :=
  match SECTOR_MAP.find? (fun p => p.2.contains s) with
  | some p => p.1
  | none => "Other"

/-- nifty_50_tickers of app.py lines 59-70, verbatim. -/
def nifty_50_tickers : List String :=
  ["RELIANCE.NS", "TCS.NS", "HDFCBANK.NS", "ICICIBANK.NS", "BHARTIARTL.NS",
   "INFY.NS", "ITC.NS", "SBIN.NS", "LICI.NS", "HINDUNILVR.NS",
   "LT.NS", "BAJFINANCE.NS", "HCLTECH.NS", "MARUTI.NS", "SUNPHARMA.NS",
   "ADANIENT.NS", "TMPV.NS", "NTPC.NS", "TITAN.NS", "KOTAKBANK.NS",
   "HDFCLIFE.NS", "M&M.NS", "DRREDDY.NS", "ONGC.NS", "TRENT.NS", "POWERGRID.NS",
   "ULTRACEMCO.NS", "SBILIFE.NS", "ADANIPORTS.NS", "GRASIM.NS", "MAXHEALTH.NS",
   "JIOFIN.NS", "TATASTEEL.NS", "ASIANPAINT.NS", "EICHERMOT.NS", "HINDALCO.NS",
   "COALINDIA.NS", "CIPLA.NS", "INDIGO.NS", "APOLLOHOSP.NS", "JSWSTEEL.NS",
   "TATACONSUM.NS", "NESTLEIND.NS", "BEL.NS", "AXISBANK.NS", "WIPRO.NS",
   "TECHM.NS", "ADANIPOWER.NS", "SHREECEM.NS"]

/-- Data one successful provider round trip yields for one ticker:
`closes` and `volumes` model the 30d history DataFrame columns, the
three option fields model `info.get` lookups (absent key = `none`). -/
structure StockData where
  closes : List ℚ
  volumes : List ℚ
  info52High : Option ℚ
  info52Low : Option ℚ
  marketCap : Option ℚ
deriving DecidableEq, Repr

/-- One row of the DataFrame built by fetch_pro_data (app.py lines
94-105); field order and content follow the dict literal there
("LTP", "Change", "Today %", "Signal", "Near 52W High", "Near 52W Low",
"Volume", "Market Cap (Cr)"). -/
structure Row where
  symbol : String
  sector : String
  ltp : ℚ
  changeAbs : ℚ
  changePct : ℚ
  signal : String
  distHigh : ℚ
  distLow : ℚ
  volume : ℚ
  marketCapCr : ℚ
deriving DecidableEq, Repr

/-- Body of the per-ticker try block of fetch_pro_data after the length
guard (app.py lines 82-105). A `none` anywhere models an exception
(IndexError / ZeroDivisionError) caught by the bare `except: continue`
on line 106; the code raises at the first failing subexpression, and
this model likewise yields `none` whenever any subexpression fails, so
the skip behaviour agrees. `info.get(key, ltp)` substitutes the latest
close only when the key is absent, hence `Option.getD`. -/
def mkRow (ticker : String) (d : StockData) : Option Row :=
  match iloc d.closes 1, iloc d.closes 2, iloc d.closes 20, iloc d.closes 10 with
  | some ltp, some prev, some c20, some c10 =>
    let signal := if c20 < ltp then "BULLISH" else if c10 > ltp then "BEARISH" else "NEUTRAL"
    let high52 := d.info52High.getD ltp
    let low52 := d.info52Low.getD ltp
    match qdiv (high52 - ltp) high52, qdiv (ltp - low52) low52,
          qdiv (ltp - prev) prev, iloc d.volumes 1 with
    | some dh, some dl, some pct, some vol =>
      some { symbol := stripNS ticker, sector := sectorOf (stripNS ticker),
             ltp := round2 ltp, changeAbs := round2 (ltp - prev),
             changePct := round2 (pct * 100), signal := signal,
             distHigh := round2 (dh * 100), distLow := round2 (dl * 100),
             volume := vol, marketCapCr := round2 (d.marketCap.getD 0 / 10 ^ 7) }
    | _, _, _, _ => none
  | _, _, _, _ => none

/-- One iteration of the fetch_pro_data loop (app.py lines 76-106): a
provider exception or any in-body exception is caught and the symbol is
skipped; a history of fewer than 21 points is skipped by the guard
`if len(hist) < 21: continue` on line 81. -/
def processTicker (ticker : String) (fetch : Except Unit StockData) : Option Row :=
  match fetch with
  | .error _ => none
  | .ok d => if d.closes.length < 21 then none else mkRow ticker d

/-- fetch_pro_data (app.py lines 74-107): the loop over the ticker list,
collecting the appended row dicts in order. -/
def fetch_pro_data (provider : String → Except Unit StockData)
    (tickers : List String) : List Row :=
  tickers.filterMap (fun t => processTicker t (provider t))

/-- Advancer count (app.py line 144): rows of the table whose stored
(rounded) Today % is positive. -/
def advancers (rows : List Row) : Nat :=
  (rows.filter (fun r => decide (0 < r.changePct))).length

/-- Decliner count (app.py line 144). -/
def decliners (rows : List Row) : Nat :=
  (rows.filter (fun r => decide (r.changePct < 0))).length

/-- Market sentiment block (app.py lines 144-145). On an empty table the
code fails: line 144 raises KeyError on the missing column and line 145
`sent_pct = (adv/len(df))*100` divides by zero; both uncaught failure
modes are modelled as `none`. -/
def marketSentiment (rows : List Row) : Option (Nat × Nat × ℚ) :=
  if rows.length = 0 then none
  else some (advancers rows, decliners rows,
             ((advancers rows : ℚ) / (rows.length : ℚ)) * 100)

/-- Insertion step of a stable descending sort on a key: the inserted
element passes over exactly the elements with strictly larger key, so
elements with equal keys keep their original relative order. -/
def insertDesc (key : Row → ℚ) (x : Row) : List Row → List Row
  | [] => [x]
  | s :: rest => if key s ≤ key x then x :: s :: rest else s :: insertDesc key x rest

/-- Stable descending sort by a key (earlier input rows come first among
equal keys), the ordering pandas produces for ties under the default
keep="first". -/
def sortDescBy (key : Row → ℚ) (l : List Row) : List Row :=
  l.foldr (insertDesc key) []

/-- df.nlargest(n, "Today %") of app.py line 165: the first n rows of the
stable descending sort on the stored Today % column; pandas keeps first
occurrences on ties, in their original order. -/
def nlargestRows (n : Nat) (l : List Row) : List Row :=
  (sortDescBy Row.changePct l).take n

/-- Insertion step of a stable ascending sort on a key. -/
def insertAsc (key : Row → ℚ) (x : Row) : List Row → List Row
  | [] => [x]
  | s :: rest => if key x ≤ key s then x :: s :: rest else s :: insertAsc key x rest

/-- Stable ascending sort by a key. -/
def sortAscBy (key : Row → ℚ) (l : List Row) : List Row :=
  l.foldr (insertAsc key) []

/-- df.nsmallest(n, "Today %") of app.py line 169. -/
def nsmallestRows (n : Nat) (l : List Row) : List Row :=
  (sortAscBy Row.changePct l).take n

/-- fetch_historical_perf (app.py lines 110-121). The result is the dict
of 1W/1M/1Y percent returns. An empty history returns zeros on line 115;
the bare `except: return zeros` on line 121 turns any exception
(provider failure, IndexError, ZeroDivisionError) into zeros as well,
which `Option.getD` applied to the modelled try body reproduces. -/
def fetch_historical_perf (fetch : Except Unit (List ℚ)) : ℚ × ℚ × ℚ :=
  (match fetch with
   | .error _ => none
   | .ok closes =>
     if closes.length = 0 then some ((0 : ℚ), (0 : ℚ), (0 : ℚ))
     else
       match iloc closes 1,
             (if 5 ≤ closes.length then iloc closes 5 else closes.get? 0),
             (if 21 ≤ closes.length then iloc closes 21 else closes.get? 0),
             (if 252 ≤ closes.length then iloc closes 252 else closes.get? 0) with
       | some curr, some pw, some pm, some py =>
         match qdiv (curr - pw) pw, qdiv (curr - pm) pm, qdiv (curr - py) py with
         | some w, some m, some y => some (w * 100, m * 100, y * 100)
         | _, _, _ => none
       | _, _, _, _ => none).getD (0, 0, 0)

/-- One entry of `hist["Close"].pct_change()` (app.py line 217): a finite
session-over-session fractional return, the NaN pandas produces for 0/0,
or the non-finite value pandas produces for x/0 with x nonzero. -/
inductive PctRet where
  | val (r : ℚ)
  | nan
  | inf
deriving DecidableEq, Repr

/-- pct_change of the close column (app.py line 217), one entry per
consecutive pair; the leading NaN pandas places at the first row is not
materialised here because std skips it either way. -/
def pctChange : List ℚ → List PctRet
  | p :: c :: rest =>
    (if p = 0 then (if c = 0 then PctRet.nan else PctRet.inf) else PctRet.val (c / p - 1))
      :: pctChange (c :: rest)
  | _ => []

/-- Finite entries of a return list, the values pandas std averages
after skipping NaN. -/
def stdVals (rs : List PctRet) : List ℚ :=
  rs.filterMap (fun r => match r with | .val q => some q | _ => none)

/-- True when some entry is non-finite, which poisons the std into a
non-finite result. -/
def hasInf (rs : List PctRet) : Bool :=
  rs.any (fun r => match r with | .inf => true | _ => false)

/-- Square of `hist["returns"].std() * 100` (app.py line 218): pandas
std is the sample standard deviation (ddof = 1) of the non-NaN returns.
The square is modelled because the standard deviation itself is an
irrational square root; `none` models a NaN result, which pandas yields
when fewer than 2 non-NaN returns exist (and for a non-finite input). -/
def volatilitySq (closes : List ℚ) : Option ℚ :=
  let rs := pctChange closes
  if hasInf rs then none
  else
    let vals := stdVals rs
    if vals.length < 2 then none
    else some ((((vals.map (fun v => (v - vals.sum / (vals.length : ℚ)) ^ 2)).sum)
                / ((vals.length : ℚ) - 1)) * 10000)

/-- One iteration of the volatility loop (app.py lines 214-221): on a
fetch exception the except branch appends a literal 0; otherwise the
computed (possibly NaN) value is appended. The carried value is the
squared volatility as in volatilitySq. -/
def volEntry (fetch : Except Unit (List ℚ)) : Option ℚ :=
  match fetch with
  | .error _ => some 0
  | .ok closes => volatilitySq closes

/-- One rendered index metric of the Indian Market Pulse block (app.py
line 139): latest value, day-over-day delta, and delta percent. -/
structure Pulse where
  name : String
  value : ℚ
  delta : ℚ
  deltaPct : ℚ
deriving DecidableEq, Repr

/-- Indian Market Pulse loop (app.py lines 135-139). The loop body has
no try/except: a provider exception, or the ZeroDivisionError when the
previous close is zero, is uncaught, aborting the script; the second
component `true` records that abort, and the pulses rendered before it
are kept. A fetched series with fewer than 2 points is skipped by the
`if len(idx_h) >= 2` guard and the loop continues. -/
def indexPulse : List (String × Except Unit (List ℚ)) → List Pulse × Bool
  | [] => ([], false)
  | (name, fetch) :: rest =>
    match fetch with
    | .error _ => ([], true)
    | .ok closes =>
      if 2 ≤ closes.length then
        match iloc closes 1, iloc closes 2 with
        | some p, some prev =>
          match qdiv (p - prev) prev with
          | some dpct =>
            let tail := indexPulse rest
            (⟨name, p, p - prev, dpct * 100⟩ :: tail.1, tail.2)
          | none => ([], true)
        | _, _ => ([], true)
      else indexPulse rest

/-- Claim C2 comparison definition, following the words of the spec:
BULLISH if the close from longWindow = 20 sessions before the latest is
below the latest close, else BEARISH if the close from shortWindow = 10
sessions before the latest is above it, else NEUTRAL. The close k
sessions before the latest of an n-point series sits at position
n-1-k, that is iloc (k+1). -/
def signalSpec (closes : List ℚ) : Option String :=
  match iloc closes 1, iloc closes 21, iloc closes 11 with
  | some ltp, some cL, some cS =>
    some (if cL < ltp then "BULLISH" else if cS > ltp then "BEARISH" else "NEUTRAL")
  | _, _, _ => none

/-- Claim C10 comparison definition, following the words of the spec:
remove the ".NS" suffix (only a trailing occurrence). -/
def dropNSSuffix (t : String) : String :=
  match t.data.reverse with
  | 'S' :: 'N' :: '.' :: rest => String.mk rest.reverse
  | _ => t

/-- Claim C8 comparison definition, following the words of the spec:
the session-over-session percentage returns of a series. -/
def pctReturns100 : List ℚ → List ℚ
  | p :: c :: rest => ((c - p) / p * 100) :: pctReturns100 (c :: rest)
  | _ => []

/-- Sample variance (ddof = 1) of a list of values, `none` when fewer
than 2 values exist; the spec volatility is its square root. -/
def sampleVar (vals : List ℚ) : Option ℚ :=
  if vals.length < 2 then none
  else some (((vals.map (fun v => (v - vals.sum / (vals.length : ℚ)) ^ 2)).sum)
             / ((vals.length : ℚ) - 1))

/-- A 21-point constant history used as concrete test data. -/
def goodCloses : List ℚ :=
  [100, 100, 100, 100, 100, 100, 100, 100, 100, 100,
   100, 100, 100, 100, 100, 100, 100, 100, 100, 100, 100]

/-- Concrete healthy stock data: 21 closes, one volume row, no info. -/
def dGood : StockData := ⟨goodCloses, [1], none, none, none⟩

/-- Concrete 5-symbol basket (claim C6 scenario). -/
def tickers5 : List String := ["AA.NS", "BB.NS", "CC.NS", "DD.NS", "EE.NS"]

/-- Concrete provider for tickers5: CC.NS has a one-point series, the
rest are healthy. -/
def provider5 : String → Except Unit StockData :=
  fun t => if t = "CC.NS" then Except.ok ⟨[100], [1], none, none, none⟩ else Except.ok dGood

/-- Concrete 21-point history on which the close 20 sessions before the
latest (value 200) and the 20th-from-last close (value 50) give
different crossover calls: positions 0..20 hold
200, 50, 100 x 8, 150, 10, 100 x 8, 100. -/
def cex2closes : List ℚ :=
  [200, 50, 100, 100, 100, 100, 100, 100, 100, 100,
   150, 10, 100, 100, 100, 100, 100, 100, 100, 100, 100]

/-- Stock data carrying cex2closes. -/
def d2 : StockData := ⟨cex2closes, [1], none, none, none⟩

/-- Concrete history with latest change +1.001 percent (19 filler
closes, then 1000, then 1010.01). -/
def rawCloses1001 : List ℚ :=
  [100, 100, 100, 100, 100, 100, 100, 100, 100, 100,
   100, 100, 100, 100, 100, 100, 100, 100, 100, 1000, 101001 / 100]

/-- Concrete history with latest change +1.004 percent. -/
def rawCloses1004 : List ℚ :=
  [100, 100, 100, 100, 100, 100, 100, 100, 100, 100,
   100, 100, 100, 100, 100, 100, 100, 100, 100, 1000, 101004 / 100]

/-- Stock data with unrounded daily change +1.001 percent. -/
def dRawA : StockData := ⟨rawCloses1001, [1], none, none, none⟩

/-- Stock data with unrounded daily change +1.004 percent. -/
def dRawB : StockData := ⟨rawCloses1004, [1], none, none, none⟩

/-- Provider mapping AAA.NS to the +1.001 percent data and every other
ticker to the +1.004 percent data. -/
def providerAB : String → Except Unit StockData :=
  fun t => if t = "AAA.NS" then Except.ok dRawA else Except.ok dRawB

/-- Two rows tied at Today % = +3 whose input order (TCS before
HDFCBANK) is the reverse of ascending symbol order. -/
def rowTCS : Row :=
  ⟨"TCS", "IT/Technology", 103, 3, 3, "BULLISH", 0, 0, 1, 0⟩

/-- Second row of the tied pair. -/
def rowHDFC : Row :=
  ⟨"HDFCBANK", "Banking/Finance", 103, 3, 3, "BULLISH", 0, 0, 1, 0⟩

/-- Three-row table matching the end-to-end spec scenario: one advancer
(+2.5), one decliner (-1), one flat (0). -/
def demoRows : List Row :=
  [⟨"A", "Other", 100, 5 / 2, 5 / 2, "NEUTRAL", 0, 0, 1, 0⟩,
   ⟨"B", "Other", 100, -1, -1, "NEUTRAL", 0, 0, 1, 0⟩,
   ⟨"C", "Other", 100, 0, 0, "NEUTRAL", 0, 0, 1, 0⟩]

/-- Concrete index-pulse inputs: the first and third index fetches
succeed with 2-point series, the second raises. -/
def cexPulse : List (String × Except Unit (List ℚ)) :=
  [("NIFTY 50", Except.ok [100, 110]),
   ("SENSEX", Except.error ()),
   ("BANK NIFTY", Except.ok [100, 120])]

/-- Expected row for AAA.NS with unrounded change +1.001 percent. -/
def rowA3 : Row :=
  ⟨"AAA", "Other", 101001 / 100, 1001 / 100, 1, "BULLISH", 0, 0, 1, 0⟩

/-- Expected row for BBB.NS with unrounded change +1.004 percent. -/
def rowB3 : Row :=
  ⟨"BBB", "Other", 101004 / 100, 1004 / 100, 1, "BULLISH", 0, 0, 1, 0⟩

/-- Expected output row for a healthy all-100 ticker named W.NS. -/
def rowW : Row := ⟨"W", "Other", 100, 0, 0, "NEUTRAL", 0, 0, 1, 0⟩

/-- Valid negative indexing always yields a value. -/
theorem iloc_eq_some_of_le (l : List ℚ) (k : Nat) (h1 : 1 ≤ k) (h2 : k ≤ l.length) :
    ∃ x, iloc l k = some x := by
  have hlt : l.length - k < l.length := by omega
  refine ⟨l.get ⟨l.length - k, hlt⟩, ?_⟩
  simp [iloc, h1, h2, List.get?_eq_get hlt]

/-- Advancers and decliners are counts of disjoint row subsets. -/
theorem advancers_add_decliners_le (rows : List Row) :
    advancers rows + decliners rows ≤ rows.length := by
  induction rows with
  | nil => simp [advancers, decliners]
  | cons r rs ih =>
    simp only [advancers, decliners] at ih ⊢
    by_cases h1 : (0 : ℚ) < r.changePct
    · have h2 : ¬ r.changePct < 0 := by linarith
      simp [List.filter_cons, h1, h2]
      omega
    · by_cases h2 : r.changePct < 0
      · simp [List.filter_cons, h1, h2]
        omega
      · simp [List.filter_cons, h1, h2]
        omega

/-- Claim C1 (corrected): for any snapshot table, advancers counts the
rows with positive stored changePct and decliners those with negative
stored changePct, so advancers + decliners never exceeds the row count;
on a nonempty table the sentiment block yields exactly
advancers / |rows| * 100, which lies between 0 and 100. On an EMPTY
table, however, the code fails (uncaught ZeroDivisionError at
`sent_pct = (adv/len(df))*100`) instead of reporting an undefined or
zero sentiment by convention. -/
theorem C1_amended (rows : List Row) :
    advancers rows + decliners rows ≤ rows.length ∧
    (0 < rows.length →
      marketSentiment rows = some (advancers rows, decliners rows,
        ((advancers rows : ℚ) / (rows.length : ℚ)) * 100) ∧
      0 ≤ ((advancers rows : ℚ) / (rows.length : ℚ)) * 100 ∧
      ((advancers rows : ℚ) / (rows.length : ℚ)) * 100 ≤ 100) := by
  refine ⟨advancers_add_decliners_le rows, fun hpos => ?_⟩
  have hne : rows.length ≠ 0 := Nat.pos_iff_ne_zero.mp hpos
  have hn : (0 : ℚ) < (rows.length : ℚ) := by exact_mod_cast hpos
  have hadv : (advancers rows : ℚ) ≤ (rows.length : ℚ) := by
    exact_mod_cast List.length_filter_le _ rows
  refine ⟨by simp [marketSentiment, hne], ?_, ?_⟩
  · positivity
  · rw [div_mul_eq_mul_div, div_le_iff₀ hn]
    nlinarith

/-- Claim C1 witness: the amended invariant instantiated at the
three-row scenario of the spec (one advancer at +2.5, one decliner at
-1, one flat row); the sentiment evaluates to 100/3 percent. -/
theorem C1_amended_witness :
    advancers demoRows + decliners demoRows ≤ demoRows.length ∧
    marketSentiment demoRows = some (advancers demoRows, decliners demoRows,
      ((advancers demoRows : ℚ) / (demoRows.length : ℚ)) * 100) ∧
    marketSentiment demoRows = some (1, 1, 100 / 3) := by
  refine ⟨(C1_amended demoRows).1,
    ((C1_amended demoRows).2 (by norm_num [demoRows])).1, ?_⟩
  norm_num [marketSentiment, demoRows, advancers, decliners, List.filter]

/-- Claim C1 counterexample: on an empty per-symbol table the sentiment
computation fails (modelled `none`, the uncaught ZeroDivisionError of
app.py line 145); it does not produce any value, in particular not a
zero-by-convention sentiment, contradicting the claim that an empty
basket is not a failure. -/
theorem C1_counterexample :
    marketSentiment ([] : List Row) = none ∧
    marketSentiment ([] : List Row) ≠ some (0, 0, 0) := by
  exact ⟨rfl, by simp [marketSentiment]⟩

/-- A healthy all-100 ticker always produces the same row apart from its
name and sector. -/
theorem processTicker_dGood (t : String) :
    processTicker t (Except.ok dGood) =
      some ⟨stripNS t, sectorOf (stripNS t), 100, 0, 0, "NEUTRAL", 0, 0, 1, 0⟩ := by
  norm_num [processTicker, mkRow, iloc, qdiv, dGood, goodCloses, round2, List.get?]

/-- Fields of a row successfully produced by the fetch_pro_data body, in
terms of the extracted closes. -/
theorem mkRow_eq_some_fields {t : String} {d : StockData} {r : Row}
    {ltp prev c20 c10 : ℚ}
    (h1 : iloc d.closes 1 = some ltp) (h2 : iloc d.closes 2 = some prev)
    (h3 : iloc d.closes 20 = some c20) (h4 : iloc d.closes 10 = some c10)
    (hr : mkRow t d = some r) :
    r.symbol = stripNS t ∧
    r.signal = (if c20 < ltp then "BULLISH" else if c10 > ltp then "BEARISH" else "NEUTRAL") ∧
    prev ≠ 0 ∧
    r.changeAbs = round2 (ltp - prev) ∧
    r.changePct = round2 ((ltp - prev) / prev * 100) := by
  simp only [mkRow, h1, h2, h3, h4] at hr
  split at hr
  next dh dl pct vol hq1 hq2 hq3 hv =>
    rw [qdiv] at hq3
    split at hq3
    · exact absurd hq3 (by simp)
    next hprev =>
      obtain rfl : (ltp - prev) / prev = pct := by exact Option.some.inj hq3
      obtain rfl : _ = r := Option.some.inj hr
      exact ⟨rfl, rfl, hprev, rfl, rfl⟩
  next h =>
    exact absurd hr (by simp)

/-- Claim C2 (corrected): a symbol with fewer than 21 daily points is
skipped (not included in the snapshot), as the claim says; but the
crossover signal is computed from the 20th-from-last close
(`hist["Close"].iloc[-20]`, the close 19 sessions before the latest)
and the 10th-from-last close (9 sessions before the latest), not from
the closes 20 and 10 sessions before the latest: BULLISH when the
20th-from-last close is below the latest close, else BEARISH when the
10th-from-last close is above the latest close, else NEUTRAL. -/
theorem C2_amended :
    (∀ t d, d.closes.length < 21 → processTicker t (Except.ok d) = none) ∧
    (∀ t d r ltp c20 c10, iloc d.closes 1 = some ltp → iloc d.closes 20 = some c20 →
      iloc d.closes 10 = some c10 → processTicker t (Except.ok d) = some r →
      r.signal =
        (if c20 < ltp then "BULLISH" else if c10 > ltp then "BEARISH" else "NEUTRAL")) := by
  constructor
  · intro t d h
    simp [processTicker, h]
  · intro t d r ltp c20 c10 h1 h3 h4 hr
    rw [processTicker] at hr
    split at hr
    · exact absurd hr (by simp)
    next hlen =>
      obtain ⟨prev, h2⟩ := iloc_eq_some_of_le d.closes 2 (by omega) (by omega)
      exact (mkRow_eq_some_fields h1 h2 h3 h4 hr).2.1

/-- Claim C2 witness: a one-point history is skipped, and the healthy
all-100 ticker W.NS receives the NEUTRAL signal delivered by the
20th-from-last and 10th-from-last closes (both 100). -/
theorem C2_amended_witness :
    processTicker "S.NS" (Except.ok ⟨[100], [1], none, none, none⟩) = none ∧
    rowW.signal =
      (if (100 : ℚ) < 100 then "BULLISH" else if (100 : ℚ) > 100 then "BEARISH"
       else "NEUTRAL") := by
  constructor
  · exact C2_amended.1 "S.NS" ⟨[100], [1], none, none, none⟩ (by norm_num)
  · refine C2_amended.2 "W.NS" dGood rowW 100 100 100 ?_ ?_ ?_ ?_
    · norm_num [iloc, dGood, goodCloses, List.get?]
    · norm_num [iloc, dGood, goodCloses, List.get?]
    · norm_num [iloc, dGood, goodCloses, List.get?]
    · rw [processTicker_dGood]
      rfl

/-- Claim C2 counterexample: on the 21-point history cex2closes the code
returns BULLISH (its 20th-from-last close 50 is below the latest close
100) while the signal described by the claim, computed from the closes
20 and 10 sessions before the latest (200 and 150), is BEARISH. -/
theorem C2_counterexample :
    (processTicker "X.NS" (Except.ok d2)).map Row.signal = some "BULLISH" ∧
    signalSpec cex2closes = some "BEARISH" := by
  constructor
  · norm_num [processTicker, mkRow, d2, cex2closes, iloc, qdiv, List.get?, Option.map]
  · norm_num [signalSpec, cex2closes, iloc, List.get?]

/-- Evaluation of the +1.001 percent ticker. -/
theorem processTicker_dRawA :
    processTicker "AAA.NS" (Except.ok dRawA) = some rowA3 := by
  norm_num [processTicker, mkRow, dRawA, rawCloses1001, iloc, qdiv, List.get?, rowA3,
    round2, stripNS, stripNSChars]
  rfl

/-- Evaluation of the +1.004 percent ticker. -/
theorem processTicker_dRawB :
    processTicker "BBB.NS" (Except.ok dRawB) = some rowB3 := by
  norm_num [processTicker, mkRow, dRawB, rawCloses1004, iloc, qdiv, List.get?, rowB3,
    round2, stripNS, stripNSChars]
  rfl

/-- Claim C3 (corrected): changeAbs and changePct follow the stated
formulas, but both are rounded to 2 decimal places BEFORE being stored
in the table (app.py lines 98-99), so full precision is not retained
internally: every downstream ranking reads the rounded changePct. The
theorem exhibits exactly what is stored for any row the aggregator
produces. -/
theorem C3_amended :
    ∀ t d r ltp prev, iloc d.closes 1 = some ltp → iloc d.closes 2 = some prev →
      processTicker t (Except.ok d) = some r →
      r.changeAbs = round2 (ltp - prev) ∧
      r.changePct = round2 ((ltp - prev) / prev * 100) := by
  intro t d r ltp prev h1 h2 hr
  rw [processTicker] at hr
  split at hr
  · exact absurd hr (by simp)
  next hlen =>
    obtain ⟨c20, h3⟩ := iloc_eq_some_of_le d.closes 20 (by omega) (by omega)
    obtain ⟨c10, h4⟩ := iloc_eq_some_of_le d.closes 10 (by omega) (by omega)
    have h := mkRow_eq_some_fields h1 h2 h3 h4 hr
    exact ⟨h.2.2.2.1, h.2.2.2.2⟩

/-- Claim C3 witness: the ticker whose raw daily change is +1.001
percent stores changeAbs 10.01 and changePct round2(1.001) = 1. -/
theorem C3_amended_witness :
    rowA3.changeAbs = round2 (101001 / 100 - 1000) ∧
    rowA3.changePct = round2 ((101001 / 100 - 1000) / 1000 * 100) := by
  refine C3_amended "AAA.NS" dRawA rowA3 (101001 / 100) 1000 ?_ ?_ ?_
  · norm_num [iloc, dRawA, rawCloses1001, List.get?]
  · norm_num [iloc, dRawA, rawCloses1001, List.get?]
  · exact processTicker_dRawA

/-- Claim C3 counterexample: two tickers whose raw changes are +1.001
and +1.004 percent both store changePct = 1 (full precision is NOT
retained internally), and although the unrounded change of BBB exceeds
that of AAA, the top-gainer ranking - computed on the stored rounded
column - returns AAA first: the ranking is decided on the rounded
values, not the unrounded ones. -/
theorem C3_counterexample :
    (fetch_pro_data providerAB ["AAA.NS", "BBB.NS"]).map Row.changePct = [1, 1] ∧
    ((101001 : ℚ) / 100 - 1000) / 1000 * 100 < ((101004 : ℚ) / 100 - 1000) / 1000 * 100 ∧
    (nlargestRows 5 (fetch_pro_data providerAB ["AAA.NS", "BBB.NS"])).map Row.symbol =
      ["AAA", "BBB"] := by
  have hA : providerAB "AAA.NS" = Except.ok dRawA := rfl
  have hB : providerAB "BBB.NS" = Except.ok dRawB := rfl
  have hdf : fetch_pro_data providerAB ["AAA.NS", "BBB.NS"] = [rowA3, rowB3] := by
    simp only [fetch_pro_data, List.filterMap, hA, hB, processTicker_dRawA,
      processTicker_dRawB]
  refine ⟨?_, by norm_num, ?_⟩
  · rw [hdf]
    norm_num [rowA3, rowB3]
  · rw [hdf]
    norm_num [nlargestRows, sortDescBy, insertDesc, rowA3, rowB3]

/-- Claim C5 (corrected): the historical-return calculator cannot signal
InsufficientData at all. On an empty history it returns the literal
zeros dict (app.py line 115) and on any exception the bare except
returns the same zeros (line 121); for a nonempty history shorter than
a horizon it substitutes the earliest close, so a one-session-short
history yields the same computed value for all three horizons. -/
theorem C5_amended :
    fetch_historical_perf (Except.error ()) = (0, 0, 0) ∧
    fetch_historical_perf (Except.ok []) = (0, 0, 0) ∧
    (∀ closes c0 curr, closes.get? 0 = some c0 → iloc closes 1 = some curr →
      closes.length < 5 → c0 ≠ 0 →
      fetch_historical_perf (Except.ok closes) =
        ((curr - c0) / c0 * 100, (curr - c0) / c0 * 100, (curr - c0) / c0 * 100)) := by
  refine ⟨rfl, rfl, ?_⟩
  intro closes c0 curr h0 h1 hlen hc0
  have hne : closes.length ≠ 0 := by
    intro h
    rw [List.length_eq_zero] at h
    subst h
    simp at h0
  simp only [fetch_historical_perf]
  rw [if_neg hne, if_neg (show ¬ 5 ≤ closes.length by omega),
    if_neg (show ¬ 21 ≤ closes.length by omega),
    if_neg (show ¬ 252 ≤ closes.length by omega), h1, h0]
  simp only [qdiv, if_neg hc0]
  rfl

/-- Claim C5 witness: a two-point history (shorter than every horizon)
produces the earliest-close fallback value +10 percent on all three
horizons rather than failing. -/
theorem C5_amended_witness :
    fetch_historical_perf (Except.ok [100, 110]) =
      (((110 : ℚ) - 100) / 100 * 100, ((110 : ℚ) - 100) / 100 * 100,
       ((110 : ℚ) - 100) / 100 * 100) := by
  refine C5_amended.2.2 [100, 110] 100 110 rfl ?_ (by norm_num) (by norm_num)
  norm_num [iloc, List.get?]

/-- Claim C5 counterexample: an empty history - shorter than the minimum
of every horizon calculator - makes fetch_historical_perf return the
fabricated zeros dict instead of signalling InsufficientData to the
caller, and a raising provider is also silently converted to zeros;
both contradict the claim that results are never defaulted to zero. -/
theorem C5_counterexample :
    fetch_historical_perf (Except.ok []) = (0, 0, 0) ∧
    fetch_historical_perf (Except.error ()) = (0, 0, 0) := ⟨rfl, rfl⟩

/-- Claim C6 (corrected): a symbol whose fetch raises, whose series is
short, or whose computation raises is skipped without affecting any
other symbol - removing such a symbol from the basket leaves the
snapshot unchanged, so the run never aborts and every other ticker
still contributes its row. No diagnostics entry exists: the bare
`except: continue` discards the failure, and fetch_pro_data returns
only the row table. -/
theorem C6_amended :
    ∀ (provider : String → Except Unit StockData) (ts1 ts2 : List String) (t : String),
      processTicker t (provider t) = none →
      fetch_pro_data provider (ts1 ++ t :: ts2) = fetch_pro_data provider (ts1 ++ ts2) := by
  intro provider ts1 ts2 t h
  simp [fetch_pro_data, List.filterMap_append, List.filterMap_cons, h]

/-- Claim C6 witness: dropping the one-point symbol CC.NS from the
five-symbol basket leaves the snapshot unchanged. -/
theorem C6_amended_witness :
    fetch_pro_data provider5 tickers5 =
      fetch_pro_data provider5 ["AA.NS", "BB.NS", "DD.NS", "EE.NS"] :=
  C6_amended provider5 ["AA.NS", "BB.NS"] ["DD.NS", "EE.NS"] "CC.NS" rfl

/-- Claim C6 counterexample: in the five-symbol basket where CC.NS has a
one-point series, the run yields exactly the four rows of the healthy
symbols and nothing else - the entire output of fetch_pro_data is the
row list, and the skipped symbol CC appears nowhere in it, so no
per-run diagnostics entry records the skip, contradicting the claimed
"plus one diagnostics entry". -/
theorem C6_counterexample :
    (fetch_pro_data provider5 tickers5).map Row.symbol = ["AA", "BB", "DD", "EE"] ∧
    (fetch_pro_data provider5 tickers5).length = 4 := by
  have hAA : provider5 "AA.NS" = Except.ok dGood := rfl
  have hBB : provider5 "BB.NS" = Except.ok dGood := rfl
  have hDD : provider5 "DD.NS" = Except.ok dGood := rfl
  have hEE : provider5 "EE.NS" = Except.ok dGood := rfl
  have hCC : processTicker "CC.NS" (provider5 "CC.NS") = none := rfl
  constructor
  · simp only [fetch_pro_data, tickers5, List.filterMap, hAA, hBB, hDD, hEE, hCC,
      processTicker_dGood]
    rfl
  · simp only [fetch_pro_data, tickers5, List.filterMap, hAA, hBB, hDD, hEE, hCC,
      processTicker_dGood]
    rfl

/-- Inserting into the stable descending sort passes only over rows with
strictly larger key, so the rows at any fixed key value keep their
order, with the inserted row in front of its equals coming later. -/
theorem filter_insertDesc (key : Row → ℚ) (c : ℚ) (x : Row) (l : List Row) :
    (insertDesc key x l).filter (fun r => decide (key r = c)) =
      if key x = c then x :: l.filter (fun r => decide (key r = c))
      else l.filter (fun r => decide (key r = c)) := by
  induction l with
  | nil =>
    by_cases h : key x = c <;> simp [insertDesc, h]
  | cons s rest ih =>
    by_cases hc : key s ≤ key x
    · rw [insertDesc, if_pos hc]
      by_cases px : key x = c <;> simp [List.filter_cons, px]
    · rw [insertDesc, if_neg hc]
      have hgt : key x < key s := lt_of_not_le hc
      by_cases px : key x = c
      · have hs : ¬ key s = c := by
          intro h
          rw [px, h] at hgt
          exact lt_irrefl c hgt
        simp [List.filter_cons, px, hs, ih]
      · by_cases ps : key s = c <;> simp [List.filter_cons, px, ps, ih]

/-- The stable descending sort is a permutation that preserves the input
order of the rows at any fixed key value. -/
theorem filter_sortDescBy (key : Row → ℚ) (c : ℚ) (l : List Row) :
    (sortDescBy key l).filter (fun r => decide (key r = c)) =
      l.filter (fun r => decide (key r = c)) := by
  induction l with
  | nil => rfl
  | cons x xs ih =>
    show (insertDesc key x (sortDescBy key xs)).filter _ = _
    rw [filter_insertDesc]
    by_cases px : key x = c <;> simp [px, ih, List.filter_cons]

/-- Filtering an initial segment of a list yields an initial segment of
the filtered list. -/
theorem filter_take_eq_take_filter {α : Type} (p : α → Bool) :
    ∀ (l : List α) (n : Nat), ∃ k, (l.take n).filter p = (l.filter p).take k := by
  intro l
  induction l with
  | nil => exact fun n => ⟨0, by simp⟩
  | cons x xs ih =>
    intro n
    cases n with
    | zero => exact ⟨0, by simp⟩
    | succ m =>
      obtain ⟨k, hk⟩ := ih m
      by_cases px : p x
      · exact ⟨k + 1, by simp [List.take_succ_cons, List.filter_cons, px, hk]⟩
      · exact ⟨k, by simp [List.take_succ_cons, List.filter_cons, px, hk]⟩

/-- Inserting into the stable ascending sort passes only over rows with
strictly smaller key, so the rows at any fixed key value keep their
order, with the inserted row in front of its equals coming later. -/
theorem filter_insertAsc (key : Row → ℚ) (c : ℚ) (x : Row) (l : List Row) :
    (insertAsc key x l).filter (fun r => decide (key r = c)) =
      if key x = c then x :: l.filter (fun r => decide (key r = c))
      else l.filter (fun r => decide (key r = c)) := by
  induction l with
  | nil =>
    by_cases h : key x = c <;> simp [insertAsc, h]
  | cons s rest ih =>
    by_cases hc : key x ≤ key s
    · rw [insertAsc, if_pos hc]
      by_cases px : key x = c <;> simp [List.filter_cons, px]
    · rw [insertAsc, if_neg hc]
      have hgt : key s < key x := lt_of_not_le hc
      by_cases px : key x = c
      · have hs : ¬ key s = c := by
          intro h
          rw [px, h] at hgt
          exact lt_irrefl c hgt
        simp [List.filter_cons, px, hs, ih]
      · by_cases ps : key s = c <;> simp [List.filter_cons, px, ps, ih]

/-- The stable ascending sort is a permutation that preserves the input
order of the rows at any fixed key value. -/
theorem filter_sortAscBy (key : Row → ℚ) (c : ℚ) (l : List Row) :
    (sortAscBy key l).filter (fun r => decide (key r = c)) =
      l.filter (fun r => decide (key r = c)) := by
  induction l with
  | nil => rfl
  | cons x xs ih =>
    show (insertAsc key x (sortAscBy key xs)).filter _ = _
    rw [filter_insertAsc]
    by_cases px : key x = c <;> simp [px, ih, List.filter_cons]

/-- Claim C7 (corrected): ties in the top-N gainers selection AND in the
top-N losers selection are broken by position in the input table
(pandas nlargest and nsmallest keep first occurrences in their original
order), not by symbol name: for every changePct value c, the rows of
the selected list having value c are an initial segment of the input
rows having value c, in input order. Both selections are pure functions
of the table, hence reproducible across runs on the same data. -/
theorem C7_amended :
    ∀ (rows : List Row) (n : Nat) (c : ℚ),
      (∃ k, (nlargestRows n rows).filter (fun r => decide (r.changePct = c)) =
        (rows.filter (fun r => decide (r.changePct = c))).take k) ∧
      (∃ k, (nsmallestRows n rows).filter (fun r => decide (r.changePct = c)) =
        (rows.filter (fun r => decide (r.changePct = c))).take k) := by
  intro rows n c
  constructor
  · obtain ⟨k, hk⟩ := filter_take_eq_take_filter (fun r => decide (r.changePct = c))
      (sortDescBy Row.changePct rows) n
    exact ⟨k, by rw [nlargestRows, hk, filter_sortDescBy]⟩
  · obtain ⟨k, hk⟩ := filter_take_eq_take_filter (fun r => decide (r.changePct = c))
      (sortAscBy Row.changePct rows) n
    exact ⟨k, by rw [nsmallestRows, hk, filter_sortAscBy]⟩

/-- Claim C7 counterexample: two rows tied at changePct = +3, with TCS
before HDFCBANK in the table, are returned by the top-5 gainers
selection and by the top-5 losers selection as TCS first, HDFCBANK
second, although HDFCBANK precedes TCS in ascending symbol order -
contradicting the claimed symbol-ascending tie-break for both lists. -/
theorem C7_counterexample :
    (nlargestRows 5 [rowTCS, rowHDFC]).map Row.symbol = ["TCS", "HDFCBANK"] ∧
    (nsmallestRows 5 [rowTCS, rowHDFC]).map Row.symbol = ["TCS", "HDFCBANK"] ∧
    rowTCS.changePct = rowHDFC.changePct ∧
    ("HDFCBANK" : String) < "TCS" := by
  refine ⟨?_, ?_, rfl, ?_⟩
  · norm_num [nlargestRows, sortDescBy, insertDesc, rowTCS, rowHDFC]
  · norm_num [nsmallestRows, sortAscBy, insertAsc, rowTCS, rowHDFC]
  · rw [String.lt_iff_toList_lt]
    decide

/-- pct_change yields one entry fewer than the series length. -/
theorem pctChange_length (closes : List ℚ) :
    (pctChange closes).length = closes.length - 1 := by
  induction closes with
  | nil => rfl
  | cons p rest ih =>
    cases rest with
    | nil => rfl
    | cons c rest2 =>
      simp only [pctChange, List.length_cons] at ih ⊢
      omega

/-- With nonzero closes every pct_change entry is the finite fractional
return, which is the percentage return divided by 100. -/
theorem pctChange_eq_map (closes : List ℚ) (h : ∀ p ∈ closes, p ≠ 0) :
    pctChange closes = (pctReturns100 closes).map (fun r => PctRet.val (r / 100)) := by
  induction closes with
  | nil => rfl
  | cons p rest ih =>
    cases rest with
    | nil => rfl
    | cons c rest2 =>
      have hp : p ≠ 0 := h p (by simp)
      have hh : ∀ q ∈ c :: rest2, q ≠ 0 := fun q hq => h q (by simp [hq])
      simp only [pctChange, pctReturns100, List.map_cons, if_neg hp]
      rw [ih hh]
      congr 1
      congr 1
      field_simp
      ring

/-- Sums of pointwise quotients by a constant. -/
theorem sum_map_div (f : ℚ → ℚ) (a : ℚ) (V : List ℚ) :
    (V.map (fun v => f v / a)).sum = (V.map f).sum / a := by
  induction V with
  | nil => simp
  | cons x xs ih => simp [ih, add_div]

/-- Claim C8 (corrected): with fewer than 2 session returns the
volatility is NaN (pandas sample std with ddof = 1), not 0; and for
nonzero closes the squared computed volatility equals the sample
variance of the session-over-session percentage returns - the standard
deviation of the percentage returns, as the claim words it, not
annualized. A literal 0 appears only through the except branch of the
loop (volEntry on a raising fetch). -/
theorem C8_amended :
    (∀ closes : List ℚ, closes.length ≤ 2 → volatilitySq closes = none) ∧
    (∀ closes : List ℚ, (∀ p ∈ closes, p ≠ 0) →
      volatilitySq closes = sampleVar (pctReturns100 closes)) := by
  constructor
  · intro closes hlen
    simp only [volatilitySq]
    cases hinf : hasInf (pctChange closes) with
    | true => simp
    | false =>
      have h1 : (pctChange closes).length ≤ 1 := by
        rw [pctChange_length]
        omega
      have h2 : (stdVals (pctChange closes)).length < 2 := by
        have := List.length_filterMap_le
          (fun r => match r with | .val q => some q | _ => none) (pctChange closes)
        rw [stdVals]
        omega
      simp [h2]
  · intro closes h
    simp only [volatilitySq, pctChange_eq_map closes h]
    have hinf : hasInf ((pctReturns100 closes).map (fun r => PctRet.val (r / 100))) = false := by
      simp [hasInf, List.any_map, Function.comp]
    have hvals : ∀ V : List ℚ, stdVals (V.map (fun r => PctRet.val (r / 100)))
        = V.map (fun r => r / 100) := by
      intro V
      induction V with
      | nil => rfl
      | cons x xs ih =>
        simp only [List.map_cons, stdVals, List.filterMap_cons] at ih ⊢
        rw [ih]
    rw [hinf, hvals (pctReturns100 closes)]
    simp only [Bool.false_eq_true, if_false]
    rw [sampleVar]
    rw [List.length_map]
    by_cases hn : (pctReturns100 closes).length < 2
    · rw [if_pos hn, if_pos hn]
    · rw [if_neg hn, if_neg hn]
      congr 1
      have hsum : ((pctReturns100 closes).map (fun r => r / 100)).sum
          = (pctReturns100 closes).sum / 100 := by
        have h0 := sum_map_div (fun v => v) 100 (pctReturns100 closes)
        simpa using h0
      rw [List.map_map, hsum]
      set V := pctReturns100 closes
      set n : ℚ := (V.length : ℚ)
      set m : ℚ := V.sum / n
      have hpt : V.map ((fun v => (v - V.sum / 100 / n) ^ 2) ∘ fun r => r / 100)
          = V.map (fun v => (v - m) ^ 2 / 10000) := by
        refine List.map_congr_left (fun v hv => ?_)
        simp only [Function.comp, m]
        ring
      rw [hpt, sum_map_div (fun v => (v - m) ^ 2) 10000 V]
      ring

/-- Claim C8 witness: a one-return series yields NaN, and on the
three-point series 100, 110, 132 (returns +10 and +20 percent) the
squared volatility evaluates to the sample variance 50. -/
theorem C8_amended_witness :
    volatilitySq [100] = none ∧
    volatilitySq [100, 110, 132] = sampleVar (pctReturns100 [100, 110, 132]) ∧
    volatilitySq [100, 110, 132] = some 50 := by
  refine ⟨C8_amended.1 [100] (by norm_num), ?_, ?_⟩
  · exact C8_amended.2 [100, 110, 132] (by norm_num)
  · refine (C8_amended.2 [100, 110, 132] (by norm_num)).trans ?_
    norm_num [sampleVar, pctReturns100]

/-- Claim C8 counterexample: a two-point series has a single return, and
the code reports NaN for it (sample std of one value), not the claimed
0; the literal 0 appears only when the fetch itself raises. -/
theorem C8_counterexample :
    volatilitySq [100, 110] = none ∧
    volatilitySq [100, 110] ≠ some 0 ∧
    volEntry (Except.error ()) = some 0 := by
  have hnn : volatilitySq [100, 110] = none := by
    norm_num [volatilitySq, pctChange, hasInf, stdVals, List.filterMap]
  refine ⟨hnn, by rw [hnn]; simp, rfl⟩

/-- Claim C9 (corrected): an index whose fetched series has fewer than 2
points (missing data) is skipped without affecting the other indices;
but a fetch that RAISES is not caught anywhere in the pulse loop - it
aborts the loop, so every index after it is dropped as well. -/
theorem C9_amended :
    (∀ name rest closes, closes.length < 2 →
      indexPulse ((name, Except.ok closes) :: rest) = indexPulse rest) ∧
    (∀ (name : String) (rest : List (String × Except Unit (List ℚ))),
      indexPulse ((name, Except.error ()) :: rest) = ([], true)) := by
  constructor
  · intro name rest closes hlen
    simp only [indexPulse]
    rw [if_neg (show ¬ 2 ≤ closes.length by omega)]
  · intro name rest
    rfl

/-- Claim C9 witness: a one-point SENSEX series is skipped and the loop
continues with the remaining index, while an erroring SENSEX fetch
aborts immediately. -/
theorem C9_amended_witness :
    indexPulse [("SENSEX", Except.ok [100]), ("BANK NIFTY", Except.ok [100, 120])] =
      indexPulse [("BANK NIFTY", Except.ok [100, 120])] ∧
    indexPulse [("SENSEX", Except.error ())] = ([], true) :=
  ⟨C9_amended.1 "SENSEX" [("BANK NIFTY", Except.ok [100, 120])] [100] (by norm_num),
   C9_amended.2 "SENSEX" []⟩

/-- Claim C9 counterexample: with NIFTY 50 fetching fine, SENSEX
raising, and BANK NIFTY fetching fine, the run renders only the NIFTY
50 metric and aborts: BANK NIFTY - which on its own renders fine - is
lost, contradicting the claim that an error on one index skips only
that index and never affects the others. -/
theorem C9_counterexample :
    (indexPulse cexPulse).1.map Pulse.name = ["NIFTY 50"] ∧
    (indexPulse cexPulse).2 = true ∧
    (indexPulse [("BANK NIFTY", Except.ok [100, 120])]).1.map Pulse.name = ["BANK NIFTY"] := by
  have h : indexPulse cexPulse = ([⟨"NIFTY 50", 110, 10, 10⟩], true) := by
    norm_num [indexPulse, cexPulse, iloc, qdiv, List.get?]
  have h3 : indexPulse [("BANK NIFTY", Except.ok [100, 120])] =
      ([⟨"BANK NIFTY", 120, 20, 20⟩], false) := by
    norm_num [indexPulse, iloc, qdiv, List.get?]
  rw [h, h3]
  exact ⟨rfl, rfl, rfl⟩

/-- Every row the aggregator emits carries the replace-all-".NS" form of
its input ticker as symbol. -/
theorem processTicker_symbol {t : String} {f : Except Unit StockData} {r : Row}
    (hr : processTicker t f = some r) : r.symbol = stripNS t := by
  cases f with
  | error e => exact absurd hr (by simp [processTicker])
  | ok d =>
    simp only [processTicker] at hr
    split at hr
    · exact absurd hr (by simp)
    next hlen =>
      obtain ⟨ltp, h1⟩ := iloc_eq_some_of_le d.closes 1 (by omega) (by omega)
      obtain ⟨prev, h2⟩ := iloc_eq_some_of_le d.closes 2 (by omega) (by omega)
      obtain ⟨c20, h3⟩ := iloc_eq_some_of_le d.closes 20 (by omega) (by omega)
      obtain ⟨c10, h4⟩ := iloc_eq_some_of_le d.closes 10 (by omega) (by omega)
      exact (mkRow_eq_some_fields h1 h2 h3 h4 hr).1

/-- Claim C10 (corrected): fetch_pro_data emits at most one row per
input list entry, in input order - the output symbols are exactly the
kept tickers, in order, each transformed by stripNS; but the transform
removes EVERY occurrence of ".NS" (Python str.replace), not only a
trailing suffix. -/
theorem C10_amended :
    ∀ (provider : String → Except Unit StockData) (tickers : List String),
      (fetch_pro_data provider tickers).map Row.symbol =
        (tickers.filter (fun t => (processTicker t (provider t)).isSome)).map stripNS := by
  intro provider tickers
  induction tickers with
  | nil => rfl
  | cons t ts ih =>
    simp only [fetch_pro_data] at ih ⊢
    cases hp : processTicker t (provider t) with
    | none =>
      simp only [List.filterMap_cons, hp, List.filter_cons, Option.isSome_none,
        Bool.false_eq_true, if_false]
      exact ih
    | some r =>
      simp only [List.filterMap_cons, hp, List.filter_cons, Option.isSome_some, if_true,
        List.map_cons]
      rw [processTicker_symbol hp]
      exact congrArg (List.cons (stripNS t)) ih

/-- Claim C10 counterexample: the input ticker A.NSB.NS (a name whose
".NS" also occurs in the middle) produces the row symbol AB, while
removing only the ".NS" suffix - as the claim states - would give
A.NSB. -/
theorem C10_counterexample :
    (fetch_pro_data (fun _ => Except.ok dGood) ["A.NSB.NS"]).map Row.symbol = ["AB"] ∧
    dropNSSuffix "A.NSB.NS" = "A.NSB" ∧
    ("AB" : String) ≠ "A.NSB" := by
  refine ⟨?_, by rfl, by decide⟩
  simp only [fetch_pro_data, List.filterMap, processTicker_dGood]
  rfl
